import Mathlib

/-!
Shallow embedding of the annotation placement engine of `bevy_text_furigana`
(files src/ui.rs, src/text2d.rs, src/lib.rs).  Geometry is modelled over the
exact rationals; each per-frame system loop body is embedded as a pure
function of the data its queries fetch for one bound spec/annotation pair.
-/

namespace Furigana

/-- Planar vector over exact rationals, standing for glam `Vec2`. -/
structure Vec2 where
  x : ℚ
  y : ℚ
  deriving DecidableEq

instance : Add Vec2 := ⟨fun a b => ⟨a.x + b.x, a.y + b.y⟩⟩

instance : Sub Vec2 := ⟨fun a b => ⟨a.x - b.x, a.y - b.y⟩⟩

instance : Neg Vec2 := ⟨fun a => ⟨-a.x, -a.y⟩⟩

/-- Componentwise division of a vector by a scalar. -/
def Vec2.sdiv (v : Vec2) (s : ℚ) : Vec2 := ⟨v.x / s, v.y / s⟩

theorem Vec2.add_def (a b : Vec2) : a + b = ⟨a.x + b.x, a.y + b.y⟩ := rfl

theorem Vec2.sub_def (a b : Vec2) : a - b = ⟨a.x - b.x, a.y - b.y⟩ := rfl

/-- Spatial vector over exact rationals, standing for glam `Vec3`. -/
structure Vec3 where
  x : ℚ
  y : ℚ
  z : ℚ
  deriving DecidableEq

instance : Add Vec3 := ⟨fun a b => ⟨a.x + b.x, a.y + b.y, a.z + b.z⟩⟩

instance : Sub Vec3 := ⟨fun a b => ⟨a.x - b.x, a.y - b.y, a.z - b.z⟩⟩

/-- Axis-aligned rectangle, standing for bevy `Rect`. -/
structure Rect where
  min : Vec2
  max : Vec2
  deriving DecidableEq

/-- `Rect::from_corners`: componentwise min/max of the two corners. -/
def Rect.fromCorners (p0 p1 : Vec2) : Rect :=
  ⟨⟨Min.min p0.x p1.x, Min.min p0.y p1.y⟩,
   ⟨Max.max p0.x p1.x, Max.max p0.y p1.y⟩⟩

/-- 2D affine transform (glam `Affine2`): two matrix columns plus a
translation; `transform_point2 p = xAxis * p.x + yAxis * p.y + translation`. -/
structure Affine2 where
  xAxis : Vec2
  yAxis : Vec2
  translation : Vec2
  deriving DecidableEq

def Affine2.transformPoint2 (t : Affine2) (p : Vec2) : Vec2 :=
  ⟨t.xAxis.x * p.x + t.yAxis.x * p.y + t.translation.x,
   t.xAxis.y * p.x + t.yAxis.y * p.y + t.translation.y⟩

def Affine2.identity : Affine2 := ⟨⟨1, 0⟩, ⟨0, 1⟩, ⟨0, 0⟩⟩

/-- `Affine2::inverse`: invert the 2x2 matrix and negate the transformed
translation.  Division is the total rational division (the source assumes an
invertible matrix). -/
def Affine2.inverse (t : Affine2) : Affine2 :=
  let det := t.xAxis.x * t.yAxis.y - t.yAxis.x * t.xAxis.y
  let ix : Vec2 := ⟨t.yAxis.y / det, -t.xAxis.y / det⟩
  let iy : Vec2 := ⟨-t.yAxis.x / det, t.xAxis.x / det⟩
  ⟨ix, iy,
   ⟨-(ix.x * t.translation.x + iy.x * t.translation.y),
    -(ix.y * t.translation.x + iy.y * t.translation.y)⟩⟩

/-- `Affine2::from_scale_angle_translation`, with the angle given by its
cosine/sine pair (which is exactly what the built matrix stores): columns
`(cos*scale.x, sin*scale.x)` and `(-sin*scale.y, cos*scale.y)`. -/
def Affine2.fromScaleAngleCS (scale : Vec2) (c s : ℚ) (tr : Vec2) : Affine2 :=
  ⟨⟨c * scale.x, s * scale.x⟩, ⟨-s * scale.y, c * scale.y⟩, tr⟩

/-- A UI node's global transform (`UiGlobalTransform`) in scale / angle
(cosine, sine) / translation decomposed form.  glam's
`to_scale_angle_translation` recovers exactly these components from the
matrix built by `affineOfSAT`, so the decomposition is taken as the input
and the matrix is derived from it. -/
structure UiGlobalSAT where
  scale : Vec2
  cosA : ℚ
  sinA : ℚ
  translation : Vec2
  deriving DecidableEq

def affineOfSAT (s : UiGlobalSAT) : Affine2 :=
  Affine2.fromScaleAngleCS s.scale s.cosA s.sinA s.translation

/-- A 2D entity's `GlobalTransform`: a 3D affine (three matrix columns and a
translation) together with `rot`, standing for the quaternion returned by
`to_scale_rotation_translation().1` (only ever copied and compared). -/
structure GT3 where
  c0 : Vec3
  c1 : Vec3
  c2 : Vec3
  translation : Vec3
  rot : ℚ
  deriving DecidableEq

def GT3.transformPoint (g : GT3) (p : Vec3) : Vec3 :=
  ⟨g.c0.x * p.x + g.c1.x * p.y + g.c2.x * p.z + g.translation.x,
   g.c0.y * p.x + g.c1.y * p.y + g.c2.y * p.z + g.translation.y,
   g.c0.z * p.x + g.c1.z * p.y + g.c2.z * p.z + g.translation.z⟩

/-- `RubyPosition` (src/src/lib.rs): whether the annotation sits over or
under its base run. -/
inductive RubyPosition where
  | Over
  | Under
  deriving DecidableEq

/-- Modelled from the spec: the `RubyAlign` enum (`align: {Start, Center,
End}`, spec section 3).  It is matched on in src/src/ui.rs and
src/src/text2d.rs but declared in a crate-root revision not among the
provided sources; the three variants are pinned by those match arms. -/
inductive RubyAlign where
  | Start
  | Center
  | End
  deriving DecidableEq

/-- `TextFont`: the font size plus `rest`, an abstract stand-in for all the
other font attributes copied wholesale by `..text_font.clone()`. -/
structure TextFont where
  fontSize : ℚ
  rest : ℚ
  deriving DecidableEq

/-- Modelled from the spec: the `Ruby` spec component.  `rt`, `position` and
`font_size_scale` are declared in src/src/lib.rs; the `align` and `color`
fields (spec section 3: alignment policy, optional color override) are used
by src/src/ui.rs and src/src/text2d.rs but their declaring crate-root
revision is not among the provided sources.  Colors are abstract rational
identifiers (only copied and compared). -/
structure Ruby where
  rt : String
  position : RubyPosition
  align : RubyAlign
  fontSizeScale : ℚ
  color : Option ℚ
  deriving DecidableEq

/-- The shared anchor computation (src/src/ui.rs lines 203-213 and
src/src/text2d.rs lines 168-178): x from the alignment policy and the
annotation node's width `w`, y from the position policy. -/
def rubyPosLocalTopleft (rect : Rect) (align : RubyAlign) (pos : RubyPosition)
    (w : ℚ) : Vec2 :=
  ⟨match align with
    | .Start => rect.min.x + w / 2
    | .Center => (rect.min.x + rect.max.x) / 2
    | .End => rect.max.x - w / 2,
   match pos with
    | .Over => rect.min.y
    | .Under => rect.max.y⟩

/-- C1: for every run rectangle `R`, annotation width `w`, align policy and
position policy, the anchor has x = R.min.x + w/2 (Start),
x = midpoint(R.min.x, R.max.x) (Center), x = R.max.x - w/2 (End) and
y = R.min.y (Over), y = R.max.y (Under); it depends only on these four
arguments; in particular for R = [(10,0),(50,20)], w = 20, Center/Over the
anchor is (30, 0). -/
theorem ruby_anchor_formula :
    (∀ (R : Rect) (p : RubyPosition) (w : ℚ),
      (rubyPosLocalTopleft R .Start p w).x = R.min.x + w / 2) ∧
    (∀ (R : Rect) (p : RubyPosition) (w : ℚ),
      (rubyPosLocalTopleft R .Center p w).x = (R.min.x + R.max.x) / 2) ∧
    (∀ (R : Rect) (p : RubyPosition) (w : ℚ),
      (rubyPosLocalTopleft R .End p w).x = R.max.x - w / 2) ∧
    (∀ (R : Rect) (a : RubyAlign) (w : ℚ),
      (rubyPosLocalTopleft R a .Over w).y = R.min.y) ∧
    (∀ (R : Rect) (a : RubyAlign) (w : ℚ),
      (rubyPosLocalTopleft R a .Under w).y = R.max.y) ∧
    rubyPosLocalTopleft ⟨⟨10, 0⟩, ⟨50, 20⟩⟩ .Center .Over 20 = ⟨30, 0⟩ :=
  ⟨fun _ _ _ => rfl, fun _ _ _ => rfl, fun _ _ _ => rfl,
   fun _ _ _ => rfl, fun _ _ _ => rfl, by norm_num [rubyPosLocalTopleft]⟩

/-- `ComputedNode` data read by `update_ruby`: the node size, the text
content size, and the top-left border widths. -/
structure ComputedNode where
  size : Vec2
  contentSize : Vec2
  borderLeft : ℚ
  borderTop : ℚ
  deriving DecidableEq

/-- `ComputedNode::default()`: all measurements zero. -/
def ComputedNode.default : ComputedNode := ⟨⟨0, 0⟩, ⟨0, 0⟩, 0, 0⟩

/-- The fields of `UiTransform` that `update_ruby` reads and writes
(scale; rotation is an abstract rational standing for `Rot2`, only copied). -/
structure UiTransform where
  scale : Vec2
  rotation : ℚ
  deriving DecidableEq

/-- `Val`: a UI offset value; `update_ruby` writes `Val::Px` and a fresh
node starts at `Val::Auto`. -/
inductive Val where
  | Auto
  | Px (v : ℚ)
  deriving DecidableEq

/-- Data of the text block node returned by `node_query.get(node_entity)`
in `update_ruby` (src/src/ui.rs lines 191-195). -/
structure UiNodeData where
  computed : ComputedNode
  global : UiGlobalSAT
  transform : UiTransform
  deriving DecidableEq

/-- Data of the block node's parent (src/src/ui.rs lines 177-186): its
`ComputedNode`, its `UiGlobalTransform` and its render-target scale
factor. -/
structure UiParent where
  computed : ComputedNode
  global : Affine2
  scaleFactor : ℚ
  deriving DecidableEq

/-- Everything `update_ruby` (src/src/ui.rs) queries for one bound pair.
`spanParentMissing` is true when the spec sits on a `TextSpan` with no
parent; `Option` fields are `none` when the corresponding query misses. -/
structure UiEnv where
  ruby : Ruby
  spanParentMissing : Bool
  hasLayout : Bool
  sectionRect : Option Rect
  nodeData : Option UiNodeData
  parent : Option UiParent
  rubyComputed : Option ComputedNode
  hasRubyNode : Bool
  settings : Bool

/-- Mutable state of the ruby annotation node touched by `update_ruby`:
its `UiTransform`, its `UiGlobalTransform` and its `Node` top/left. -/
structure UiState where
  rtTransform : UiTransform
  rtGlobal : Affine2
  top : Val
  left : Val
  deriving DecidableEq

/-- Outcome of one `update_ruby` iteration: the new node state, whether
`node.top` / `node.left` were assigned, and whether the pair was placed at
all (as opposed to skipped by a `continue`). -/
structure UiResult where
  state : UiState
  wroteTop : Bool
  wroteLeft : Bool
  placed : Bool
  deriving DecidableEq

/-- One `update_ruby` loop iteration (src/src/ui.rs lines 155-247) for a
single bound pair: resolve the section rect, compute the anchor, copy the
block's scale/rotation, optionally write the global transform, and assign
`top`/`left` only when changed.  A missing query result reproduces the
source's `continue`. -/
def uiStep (env : UiEnv) (s : UiState) : UiResult :=
  if env.spanParentMissing then ⟨s, false, false, false⟩
  else if !env.hasLayout then ⟨s, false, false, false⟩
  else
    match env.sectionRect with
    | none => ⟨s, false, false, false⟩
    | some rect =>
      let pinfo := match env.parent with
        | some p => p
        | none => ⟨ComputedNode.default, Affine2.identity, 1⟩
      match env.nodeData with
      | none => ⟨s, false, false, false⟩
      | some nd =>
        match env.rubyComputed with
        | none => ⟨s, false, false, false⟩
        | some rc =>
          let anchor := rubyPosLocalTopleft rect env.ruby.align env.ruby.position rc.size.x
          let rubyPosLocal := anchor - nd.computed.size.sdiv 2
          let rubyPosGlobal := (affineOfSAT nd.global).transformPoint2 rubyPosLocal
          let rtTransform' : UiTransform := ⟨nd.transform.scale, nd.transform.rotation⟩
          let rtGlobal' := if env.settings then
              Affine2.fromScaleAngleCS nd.global.scale nd.global.cosA nd.global.sinA rubyPosGlobal
            else s.rtGlobal
          if !env.hasRubyNode then
            ⟨⟨rtTransform', rtGlobal', s.top, s.left⟩, false, false, false⟩
          else
            let rubyTopLeft := pinfo.global.inverse.transformPoint2 rubyPosGlobal
                + pinfo.computed.size.sdiv 2
                - Vec2.mk pinfo.computed.borderLeft pinfo.computed.borderTop
                - rc.size.sdiv 2
            let newTop := Val.Px (rubyTopLeft.y / pinfo.scaleFactor)
            let newLeft := Val.Px (rubyTopLeft.x / pinfo.scaleFactor)
            ⟨⟨rtTransform', rtGlobal', newTop, newLeft⟩,
             if s.top = newTop then false else true,
             if s.left = newLeft then false else true,
             true⟩

/-- C2: in the flow regime, for a bound pair whose block node has a parent,
the offset written to the annotation node is the parent-local image of the
anchor's global point, plus parent.size/2, minus the parent's top-left
border insets, minus node.size/2, divided by the parent's render-target
scale factor; `left` receives the x component and `top` the y component. -/
theorem ui_offset_formula (rby : Ruby) (rect : Rect) (nd : UiNodeData)
    (p : UiParent) (rc : ComputedNode) (stt : Bool) (s : UiState) :
    (uiStep ⟨rby, false, true, some rect, some nd, some p, some rc, true, stt⟩ s).state.left
        = Val.Px ((p.global.inverse.transformPoint2
              ((affineOfSAT nd.global).transformPoint2
                (rubyPosLocalTopleft rect rby.align rby.position rc.size.x
                  - nd.computed.size.sdiv 2))
            + p.computed.size.sdiv 2
            - Vec2.mk p.computed.borderLeft p.computed.borderTop
            - rc.size.sdiv 2).x / p.scaleFactor) ∧
    (uiStep ⟨rby, false, true, some rect, some nd, some p, some rc, true, stt⟩ s).state.top
        = Val.Px ((p.global.inverse.transformPoint2
              ((affineOfSAT nd.global).transformPoint2
                (rubyPosLocalTopleft rect rby.align rby.position rc.size.x
                  - nd.computed.size.sdiv 2))
            + p.computed.size.sdiv 2
            - Vec2.mk p.computed.borderLeft p.computed.borderTop
            - rc.size.sdiv 2).y / p.scaleFactor) := by
  refine ⟨?_, ?_⟩ <;> rfl

/-- C3: with the one-frame-delay setting on, every placed flow-regime pair
gets its global transform set to the affine built from the block's global
scale, the block's global rotation and the global anchor point as
translation; with the setting off the node's global transform is left
untouched.  This holds whether or not the node's `top`/`left` end up
assigned. -/
theorem ui_global_transform_gate (rby : Ruby) (rect : Rect) (nd : UiNodeData)
    (par : Option UiParent) (rc : ComputedNode) (hrn : Bool) (s : UiState) :
    (uiStep ⟨rby, false, true, some rect, some nd, par, some rc, hrn, true⟩ s).state.rtGlobal
        = Affine2.fromScaleAngleCS nd.global.scale nd.global.cosA nd.global.sinA
            ((affineOfSAT nd.global).transformPoint2
              (rubyPosLocalTopleft rect rby.align rby.position rc.size.x
                - nd.computed.size.sdiv 2)) ∧
    (uiStep ⟨rby, false, true, some rect, some nd, par, some rc, hrn, false⟩ s).state.rtGlobal
        = s.rtGlobal := by
  cases hrn <;> refine ⟨?_, ?_⟩ <;> rfl

/-- The `TextLayoutInfo` data read by `update_ruby_2d` for the block: the
section rect found for the spec entity (if any), the layout scale factor
and the layout size. -/
structure D2Layout where
  sectionRect : Option Rect
  scaleFactor : ℚ
  size : Vec2
  deriving DecidableEq

/-- Everything `update_ruby_2d` (src/src/text2d.rs) queries for one bound
pair; `Option` fields are `none` when the corresponding query misses. -/
structure D2Env where
  ruby : Ruby
  spanParentMissing : Bool
  layout : Option D2Layout
  rubyLayoutSize : Option Vec2
  hasRubyTransform : Bool
  textGlobal : Option GT3

/-- Mutable state of the 2D ruby node: its `Transform` translation and
rotation (the rotation as an abstract rational standing for the
quaternion). -/
structure D2State where
  translation : Vec3
  rotation : ℚ
  deriving DecidableEq

/-- Outcome of one `update_ruby_2d` iteration. -/
structure D2Result where
  state : D2State
  wrote : Bool
  placed : Bool
  deriving DecidableEq

/-- One `update_ruby_2d` loop iteration (src/src/text2d.rs lines 137-202)
for a single bound pair: divide the section rect by the layout scale
factor, compute the anchor, re-center by the layout size, flip y, carry the
node's own z through the block's global transform, and write
translation/rotation only when one of them changed. -/
def d2Step (env : D2Env) (s : D2State) : D2Result :=
  if env.spanParentMissing then ⟨s, false, false⟩
  else
    match env.layout with
    | none => ⟨s, false, false⟩
    | some li =>
      match li.sectionRect with
      | none => ⟨s, false, false⟩
      | some rect0 =>
        let rect := Rect.fromCorners (rect0.min.sdiv li.scaleFactor)
          (rect0.max.sdiv li.scaleFactor)
        match env.rubyLayoutSize with
        | none => ⟨s, false, false⟩
        | some rsz =>
          let anchor := rubyPosLocalTopleft rect env.ruby.align env.ruby.position rsz.x
          if !env.hasRubyTransform then ⟨s, false, false⟩
          else
            let p0 : Vec3 := ⟨anchor.x - li.size.x / 2, -(anchor.y - li.size.y / 2),
              s.translation.z⟩
            match env.textGlobal with
            | none => ⟨s, false, false⟩
            | some g =>
              let posGlobal := g.transformPoint p0
              if s.translation = posGlobal ∧ s.rotation = g.rot then ⟨s, false, true⟩
              else ⟨⟨posGlobal, g.rot⟩, true, true⟩

/-- A concrete spec used by the concrete-input theorems: Center/Over with
the default 0.5 font-size ratio and no color override. -/
def ruby0 : Ruby := ⟨"ruby", .Over, .Center, 1 / 2, none⟩

/-- A concrete block-node datum: 100x20 node, identity global transform. -/
def nd0 : UiNodeData :=
  ⟨⟨⟨100, 20⟩, ⟨100, 20⟩, 0, 0⟩, ⟨⟨1, 1⟩, 1, 0, ⟨0, 0⟩⟩, ⟨⟨1, 1⟩, 0⟩⟩

/-- A concrete initial UI ruby-node state (fresh node: auto offsets). -/
def uiS0 : UiState := ⟨⟨⟨1, 1⟩, 0⟩, Affine2.identity, .Auto, .Auto⟩

/-- A UI pair whose run rect is absent from the shaping output. -/
def uiEnvNoRect : UiEnv :=
  ⟨ruby0, false, true, none, some nd0, none, some ⟨⟨20, 10⟩, ⟨20, 10⟩, 0, 0⟩, true, true⟩

/-- A concrete initial 2D ruby-node state. -/
def d2S0 : D2State := ⟨⟨0, 0, 0⟩, 0⟩

/-- A 2D pair whose run rect is absent from the shaping output. -/
def d2EnvNoRect : D2Env :=
  ⟨ruby0, false, some ⟨none, 1, ⟨100, 20⟩⟩, some ⟨20, 10⟩, true,
   some ⟨⟨1, 0, 0⟩, ⟨0, 1, 0⟩, ⟨0, 0, 1⟩, ⟨0, 0, 0⟩, 0⟩⟩

/-- C4 counterexample: at a concrete bound pair whose run rect is absent,
both placement passes skip the pair — nothing is computed or written that
frame — instead of substituting a zero-size rect at the origin. -/
theorem missing_rect_not_defaulted :
    (uiStep uiEnvNoRect uiS0).placed = false ∧
    (uiStep uiEnvNoRect uiS0).state = uiS0 ∧
    (d2Step d2EnvNoRect d2S0).placed = false ∧
    (d2Step d2EnvNoRect d2S0).state = d2S0 := by
  refine ⟨?_, ?_, ?_, ?_⟩ <;> rfl

/-- C4 amended: a bound pair whose run rect is absent from the shaping
output is skipped for that frame in both regimes — no placement value is
computed or written, no other state is touched, and the pass continues
(total function, so the frame never fails).  (The zero-rect fallback
appears only in the older src/src/lib.rs revision of `update_ruby`.) -/
theorem missing_rect_skips (rby rby2 : Ruby) (nd : Option UiNodeData)
    (par : Option UiParent) (rc : Option ComputedNode) (hrn stt : Bool)
    (s : UiState) (sf : ℚ) (sz : Vec2) (rls : Option Vec2) (hrt : Bool)
    (tg : Option GT3) (s2 : D2State) :
    uiStep ⟨rby, false, true, none, nd, par, rc, hrn, stt⟩ s = ⟨s, false, false, false⟩ ∧
    d2Step ⟨rby2, false, some ⟨none, sf, sz⟩, rls, hrt, tg⟩ s2 = ⟨s2, false, false⟩ := by
  refine ⟨?_, ?_⟩ <;> rfl

/-- A world transform that translates along the depth axis by 3 (identity
rotation and scale). -/
def gDrift : GT3 := ⟨⟨1, 0, 0⟩, ⟨0, 1, 0⟩, ⟨0, 0, 1⟩, ⟨0, 0, 3⟩, 0⟩

/-- A concrete 2D bound pair whose block transform moves the depth axis. -/
def d2EnvDrift : D2Env :=
  ⟨ruby0, false, some ⟨some ⟨⟨0, 0⟩, ⟨0, 0⟩⟩, 1, ⟨0, 0⟩⟩, some ⟨0, 0⟩, true, some gDrift⟩

/-- C5 counterexample: with no change to any external input, a second
world-regime placement pass still performs a write and produces a different
placement — the node's own z is fed back through the block's global
transform, so a transform with nonzero depth translation makes the
placement drift on every pass. -/
theorem world_second_pass_writes :
    d2Step d2EnvDrift d2S0 = ⟨⟨⟨0, 0, 3⟩, 0⟩, true, true⟩ ∧
    (d2Step d2EnvDrift (d2Step d2EnvDrift d2S0).state).wrote = true ∧
    (d2Step d2EnvDrift (d2Step d2EnvDrift d2S0).state).state
      ≠ (d2Step d2EnvDrift d2S0).state := by
  have h1 : d2Step d2EnvDrift d2S0 = ⟨⟨⟨0, 0, 3⟩, 0⟩, true, true⟩ := by
    norm_num [d2Step, d2EnvDrift, d2S0, gDrift, ruby0, rubyPosLocalTopleft,
      Rect.fromCorners, Vec2.sdiv, GT3.transformPoint]
  have h2 : d2Step d2EnvDrift ⟨⟨0, 0, 3⟩, 0⟩ = ⟨⟨⟨0, 0, 6⟩, 0⟩, true, true⟩ := by
    norm_num [d2Step, d2EnvDrift, gDrift, ruby0, rubyPosLocalTopleft,
      Rect.fromCorners, Vec2.sdiv, GT3.transformPoint]
  refine ⟨h1, ?_, ?_⟩ <;> rw [h1] <;> simp [h2]

/-- A planar world transform (zero z components in the x/y basis columns,
z column (0,0,1), zero z translation) acts as a 2D affine on x/y and fixes
z. -/
theorem planar_transformPoint (a b c d tx ty rot : ℚ) (p : Vec3) :
    GT3.transformPoint ⟨⟨a, b, 0⟩, ⟨c, d, 0⟩, ⟨0, 0, 1⟩, ⟨tx, ty, 0⟩, rot⟩ p
      = ⟨a * p.x + c * p.y + tx, b * p.x + d * p.y + ty, p.z⟩ := by
  simp [GT3.transformPoint]

/-- C5 amended: a second placement pass on unchanged inputs is a no-op.  In
the flow regime this holds unconditionally: the recomputed values equal the
stored ones, so the change-gated `top`/`left` writes are both skipped.  In
the world regime it holds whenever the block's global transform is planar
(zero z components in its x/y basis columns, z column (0,0,1), zero z
translation — e.g. any pure 2D transform): the translation/rotation write
is skipped because both already equal the recomputed values.  (Under a
transform that moves the depth axis the world pass is not idempotent, since
the node's own z is fed back through it.) -/
theorem placement_idempotent (env : UiEnv) (s : UiState) (rby : Ruby)
    (spm : Bool) (li : Option D2Layout) (rls : Option Vec2) (hrt : Bool)
    (a b c d tx ty rot : ℚ) (s2 : D2State) :
    uiStep env (uiStep env s).state
        = ⟨(uiStep env s).state, false, false, (uiStep env s).placed⟩ ∧
    d2Step ⟨rby, spm, li, rls, hrt, some ⟨⟨a, b, 0⟩, ⟨c, d, 0⟩, ⟨0, 0, 1⟩, ⟨tx, ty, 0⟩, rot⟩⟩
        (d2Step ⟨rby, spm, li, rls, hrt,
            some ⟨⟨a, b, 0⟩, ⟨c, d, 0⟩, ⟨0, 0, 1⟩, ⟨tx, ty, 0⟩, rot⟩⟩ s2).state
        = ⟨(d2Step ⟨rby, spm, li, rls, hrt,
              some ⟨⟨a, b, 0⟩, ⟨c, d, 0⟩, ⟨0, 0, 1⟩, ⟨tx, ty, 0⟩, rot⟩⟩ s2).state,
           false,
           (d2Step ⟨rby, spm, li, rls, hrt,
              some ⟨⟨a, b, 0⟩, ⟨c, d, 0⟩, ⟨0, 0, 1⟩, ⟨tx, ty, 0⟩, rot⟩⟩ s2).placed⟩ := by
  constructor
  · rcases env with ⟨rby1, spm1, hl1, sr1, nd1, par1, rc1, hrn1, stt1⟩
    cases spm1 <;> cases hl1 <;> cases sr1 <;> cases nd1 <;> cases rc1 <;>
      cases hrn1 <;> cases stt1 <;> simp [uiStep]
  · rcases li with _ | ⟨sr, sf, sz⟩
    · cases spm <;> simp [d2Step]
    · rcases sr with _ | r0
      · cases spm <;> simp [d2Step]
      · cases spm <;> cases rls <;> cases hrt <;>
          simp [d2Step, planar_transformPoint] <;>
          (try split_ifs with h1 h2) <;> simp_all

/-- The identity world transform. -/
def gId : GT3 := ⟨⟨1, 0, 0⟩, ⟨0, 1, 0⟩, ⟨0, 0, 1⟩, ⟨0, 0, 0⟩, 0⟩

/-- A concrete 2D bound pair shaped at layout scale factor 2, with the run
rect [(10,0),(50,20)], a zero-size annotation and an identity block
transform. -/
def d2EnvScale : D2Env :=
  ⟨ruby0, false, some ⟨some ⟨⟨10, 0⟩, ⟨50, 20⟩⟩, 2, ⟨0, 0⟩⟩, some ⟨0, 0⟩, true, some gId⟩

/-- C6 counterexample: the world regime does apply a scale-factor
correction — the run rect is divided by the text layout's scale factor
before the anchor computation (rect [(10,0),(50,20)] at factor 2 anchors at
x = 15, not the uncorrected 30) — and the placement pass does not leave the
node's z-depth unchanged when the block transform moves the depth axis
(depth translation 3 turns the stored z = 0 into 3). -/
theorem world_scale_and_z_corrections :
    (d2Step d2EnvScale d2S0).state.translation = ⟨15, 0, 0⟩ ∧
    (⟨15, 0, 0⟩ : Vec3) ≠ ⟨30, 0, 0⟩ ∧
    rubyPosLocalTopleft ⟨⟨10, 0⟩, ⟨50, 20⟩⟩ .Center .Over 0 = ⟨30, 0⟩ ∧
    (d2Step d2EnvDrift d2S0).state.translation.z = 3 ∧
    d2S0.translation.z = 0 := by
  refine ⟨?_, ?_, ?_, ?_, rfl⟩
  · norm_num [d2Step, d2EnvScale, d2S0, gId, ruby0, rubyPosLocalTopleft,
      Rect.fromCorners, Vec2.sdiv, GT3.transformPoint]
  · norm_num
  · norm_num [rubyPosLocalTopleft]
  · norm_num [d2Step, d2EnvDrift, d2S0, gDrift, ruby0, rubyPosLocalTopleft,
      Rect.fromCorners, Vec2.sdiv, GT3.transformPoint]

/-- C6 amended: in the world regime the anchor computation applies no
border-inset correction, but it does divide the run rect by the text
layout's scale factor; the node's prior z-depth (the static offset fixed at
creation) is fed through the block's global transform, so it is preserved
exactly when that transform is planar (as for any pure 2D transform), and
is otherwise remapped.  The whole written translation is determined by the
scaled rect, the policies, the annotation width, the layout size and the
prior z — no border or render-target quantity enters. -/
theorem world_anchor_scaled_and_z (rby : Ruby) (r0 : Rect) (sf : ℚ)
    (sz w : Vec2) (a b c d tx ty rot : ℚ) (s2 : D2State) :
    (d2Step ⟨rby, false, some ⟨some r0, sf, sz⟩, some w, true,
        some ⟨⟨a, b, 0⟩, ⟨c, d, 0⟩, ⟨0, 0, 1⟩, ⟨tx, ty, 0⟩, rot⟩⟩ s2).state.translation
        = GT3.transformPoint ⟨⟨a, b, 0⟩, ⟨c, d, 0⟩, ⟨0, 0, 1⟩, ⟨tx, ty, 0⟩, rot⟩
            ⟨(rubyPosLocalTopleft (Rect.fromCorners (r0.min.sdiv sf) (r0.max.sdiv sf))
                rby.align rby.position w.x).x - sz.x / 2,
             -((rubyPosLocalTopleft (Rect.fromCorners (r0.min.sdiv sf) (r0.max.sdiv sf))
                rby.align rby.position w.x).y - sz.y / 2),
             s2.translation.z⟩ ∧
    (d2Step ⟨rby, false, some ⟨some r0, sf, sz⟩, some w, true,
        some ⟨⟨a, b, 0⟩, ⟨c, d, 0⟩, ⟨0, 0, 1⟩, ⟨tx, ty, 0⟩, rot⟩⟩ s2).state.translation.z
        = s2.translation.z ∧
    (d2Step ⟨rby, false, some ⟨some r0, sf, sz⟩, some w, true,
        some ⟨⟨a, b, 0⟩, ⟨c, d, 0⟩, ⟨0, 0, 1⟩, ⟨tx, ty, 0⟩, rot⟩⟩ s2).placed = true := by
  simp [d2Step, planar_transformPoint]
  split_ifs with h1
  · exact ⟨h1.1, rfl, rfl⟩
  · exact ⟨rfl, rfl, rfl⟩

/-- The world transform of the spec's y-flip test case: identity plus
translation (5,5,0). -/
def gFlip : GT3 := ⟨⟨1, 0, 0⟩, ⟨0, 1, 0⟩, ⟨0, 0, 1⟩, ⟨5, 5, 0⟩, 0⟩

/-- A concrete 2D bound pair realizing the spec's y-flip test case: local
anchor (30,-10), content size (100,20), block transform identity plus
translation (5,5,0). -/
def d2EnvFlip : D2Env :=
  ⟨ruby0, false, some ⟨some ⟨⟨10, -10⟩, ⟨50, 30⟩⟩, 1, ⟨100, 20⟩⟩, some ⟨0, 0⟩, true,
   some gFlip⟩

/-- C7 counterexample: at the spec's own test inputs the code produces the
final position (-15, 25), not (-15, 15): centering (30,-10) by (50,10)
gives (-20,-20), whose y-flip is (-20,20), not the (-20,10) the spec
computed. -/
theorem world_flip_example_value :
    (d2Step d2EnvFlip d2S0).state.translation = ⟨-15, 25, 0⟩ ∧
    (d2Step d2EnvFlip d2S0).state.translation ≠ ⟨-15, 15, 0⟩ := by
  have h : (d2Step d2EnvFlip d2S0).state.translation = ⟨-15, 25, 0⟩ := by
    norm_num [d2Step, d2EnvFlip, d2S0, gFlip, ruby0, rubyPosLocalTopleft,
      Rect.fromCorners, Vec2.sdiv, GT3.transformPoint]
  rw [h]
  norm_num

/-- C7 amended: the local anchor point (30,-10), after subtracting
content_size/2 = (50,10) and negating y, becomes (-20,20); applying the
world transform identity-plus-translation (5,5,0) yields the final
position (-15,25). -/
theorem world_flip_example_correct :
    ((⟨30, -10⟩ : Vec2) - (⟨100, 20⟩ : Vec2).sdiv 2) = ⟨-20, -20⟩ ∧
    (d2Step d2EnvFlip d2S0).state.translation
      = GT3.transformPoint gFlip ⟨-20, 20, 0⟩ ∧
    (d2Step d2EnvFlip d2S0).state.translation = ⟨-15, 25, 0⟩ := by
  refine ⟨?_, ?_, ?_⟩ <;>
    norm_num [d2Step, d2EnvFlip, d2S0, gFlip, ruby0, rubyPosLocalTopleft,
      Rect.fromCorners, Vec2.sdiv, Vec2.sub_def, GT3.transformPoint]

/-- `ruby_text_font` (src/src/ui.rs lines 109-114, src/src/text2d.rs lines
95-100): scale the font size, copy every other attribute. -/
def rubyTextFont (f : TextFont) (scale : ℚ) : TextFont := ⟨f.fontSize * scale, f.rest⟩

/-- What the text/style sync passes query for one ruby node: the linked
spec entity's `Ruby`, `TextFont` and `TextColor` (if the lookup succeeds),
plus the two change-detection flags (`Ref::is_changed`). -/
structure SyncEnv where
  spec : Option (Ruby × TextFont × ℚ)
  rubyChanged : Bool
  fontChanged : Bool

/-- Mutable state of a ruby node touched by the sync passes: its text, its
font, and its color (an abstract rational identifier). -/
structure SyncState where
  text : String
  font : TextFont
  color : ℚ
  deriving DecidableEq

/-- One `update_ruby_text` loop iteration (src/src/ui.rs lines 116-131):
overwrite the text on spec change, rebuild the font on font change; the
node's color is never touched. -/
def updateRubyTextStep (env : SyncEnv) (s : SyncState) : SyncState :=
  match env.spec with
  | none => s
  | some (r, f, _) =>
    ⟨if env.rubyChanged ∧ s.text ≠ r.rt then r.rt else s.text,
     if env.fontChanged then rubyTextFont f r.fontSizeScale else s.font,
     s.color⟩

/-- One `update_ruby_text_2d` loop iteration (src/src/text2d.rs lines
102-119): like the UI pass, but additionally overwrites the node's color
every call with the spec's override, defaulting to the base run's color. -/
def updateRubyText2dStep (env : SyncEnv) (s : SyncState) : SyncState :=
  match env.spec with
  | none => s
  | some (r, f, c) =>
    ⟨if env.rubyChanged ∧ s.text ≠ r.rt then r.rt else s.text,
     if env.fontChanged then rubyTextFont f r.fontSizeScale else s.font,
     r.color.getD c⟩

/-- The components `create_ruby_text_2d` (src/src/text2d.rs lines 76-93)
spawns: the binding, the text, the scaled font, the color, and a transform
whose z is the base transform's z plus 0.01. -/
structure D2Spawned where
  boundTo : ℕ
  text : String
  font : TextFont
  color : ℚ
  zTranslation : ℚ
  deriving DecidableEq

def createRubyText2d (entity : ℕ) (r : Ruby) (f : TextFont) (c : ℚ)
    (baseZ : ℚ) : D2Spawned :=
  ⟨entity, r.rt, rubyTextFont f r.fontSizeScale, r.color.getD c, baseZ + 1 / 100⟩

/-- A spec with a color override (abstract color 5). -/
def rubyColored : Ruby := ⟨"ruby", .Over, .Center, 1 / 2, some 5⟩

/-- C8 counterexample: in the flow (UI) regime the sync pass performs no
color write at all — with a spec whose override is color 5 and a node
currently at color 7, the node stays at 7 even on a changed frame — so the
color is neither set to the override nor mirrored there. -/
theorem ui_color_not_written :
    (updateRubyTextStep ⟨some (rubyColored, ⟨12, 0⟩, 3), true, true⟩
        ⟨"ruby", ⟨6, 0⟩, 7⟩).color = 7 ∧
    rubyColored.color = some 5 ∧
    (7 : ℚ) ≠ 5 := by
  refine ⟨rfl, rfl, ?_⟩
  norm_num

/-- C8 amended: only the world (2D) regime sets the annotation's color, and
it does so unconditionally on every pass — to the spec's override when one
is set, otherwise to the base run's current color — and likewise at node
creation; the flow (UI) regime never writes the annotation node's color. -/
theorem color_sync_behavior (r : Ruby) (f : TextFont) (c : ℚ)
    (ch1 ch2 : Bool) (s : SyncState) (e : ℕ) (z : ℚ) :
    (updateRubyText2dStep ⟨some (r, f, c), ch1, ch2⟩ s).color = r.color.getD c ∧
    (createRubyText2d e r f c z).color = r.color.getD c ∧
    (updateRubyTextStep ⟨some (r, f, c), ch1, ch2⟩ s).color = s.color := by
  exact ⟨rfl, rfl, rfl⟩

/-- The components `create_ruby_text` (src/src/ui.rs lines 82-107) spawns
for the flow regime: the binding, the text, an absolutely positioned node,
a z-index one above the block's, the scaled font; the node is attached as a
child only when a host parent was resolved. -/
structure UiSpawned where
  boundTo : ℕ
  text : String
  font : TextFont
  zIndex : ℤ
  attachedTo : Option ℕ
  deriving DecidableEq

/-- What `add_ruby_text_span` (src/src/ui.rs lines 45-80) queries when a
`Ruby` is added to a `TextSpan` entity: the span's `Ruby`, its `ChildOf`
parent, the parent's `ZIndex` (present only if the parent is a UI `Text`
node), the span's own `TextFont`, the parent's `TextFont`, and the
parent's own `ChildOf` parent (the grandparent). -/
structure UiSpanEnv where
  entity : ℕ
  rubySpan : Option Ruby
  parent : Option ℕ
  parentZ : Option ℤ
  fragFont : Option TextFont
  parentFont : Option TextFont
  grandparent : Option ℕ

/-- `add_ruby_text_span` (src/src/ui.rs lines 45-80): font from the span
itself, falling back to the parent block; the node is spawned with z-index
block+1 and attached to the grandparent when one exists; any earlier
missing lookup silently spawns nothing. -/
def addRubyTextSpan (env : UiSpanEnv) : Option UiSpawned :=
  match env.rubySpan with
  | none => none
  | some r =>
    match env.parent with
    | none => none
    | some _ =>
      match env.parentZ with
      | none => none
      | some z =>
        match env.fragFont.orElse (fun _ => env.parentFont) with
        | none => none
        | some f =>
          some ⟨env.entity, r.rt, rubyTextFont f r.fontSizeScale, z + 1, env.grandparent⟩

/-- What `add_ruby_text_span_2d` (src/src/text2d.rs lines 43-74) queries:
the span's `Ruby`, its parent, the span's own `TextFont`/`TextColor` pair,
and the parent's `Transform` z (present only if the parent is `Text2d`). -/
structure D2SpanEnv where
  entity : ℕ
  rubySpan : Option Ruby
  parent : Option ℕ
  fragConfig : Option (TextFont × ℚ)
  parentTransformZ : Option ℚ

/-- `add_ruby_text_span_2d` (src/src/text2d.rs lines 43-74): requires the
span's own font/color — there is no fallback to the block — and spawns a
parent-less 2D node; any missing lookup silently spawns nothing. -/
def addRubyTextSpan2d (env : D2SpanEnv) : Option D2Spawned :=
  match env.rubySpan with
  | none => none
  | some r =>
    match env.parent with
    | none => none
    | some _ =>
      match env.fragConfig with
      | none => none
      | some (f, c) =>
        match env.parentTransformZ with
        | none => none
        | some z => some (createRubyText2d env.entity r f c z)

/-- C9 counterexample: with a fragment that has no font of its own but
whose block has one, the flow regime spawns a node using the block's font
while the world regime spawns nothing at all (no block-font inheritance
there); and a flow-regime fragment whose block has no parent still gets a
node spawned — unattached — rather than attached to a grandparent. -/
theorem span_font_attach_divergence :
    addRubyTextSpan ⟨3, some ruby0, some 7, some 0, none, some ⟨12, 0⟩, some 9⟩
      = some ⟨3, "ruby", ⟨6, 0⟩, 1, some 9⟩ ∧
    addRubyTextSpan2d ⟨3, some ruby0, some 7, none, some 0⟩ = none ∧
    addRubyTextSpan ⟨3, some ruby0, some 7, some 0, some ⟨12, 0⟩, none, none⟩
      = some ⟨3, "ruby", ⟨6, 0⟩, 1, none⟩ := by
  refine ⟨?_, rfl, ?_⟩ <;>
    norm_num [addRubyTextSpan, ruby0, rubyTextFont, Option.orElse]

/-- C9 amended: when a spec is added to a fragment, the flow regime takes
the font from the fragment if it has one and otherwise falls back to the
block's font, and attaches the spawned node to the fragment's grandparent
when one exists (spawning it unattached otherwise); the world regime
requires the fragment's own font/color and spawns nothing when they are
absent; in both regimes a fragment with no parent, or a flow-regime parent
that is not a UI text block, or a world-regime parent that is not a 2D
text block, silently produces no node and no error. -/
theorem span_add_behavior :
    (∀ (e : ℕ) (r : Ruby) (p : ℕ) (z : ℤ) (f : TextFont) (gp : Option ℕ),
      addRubyTextSpan ⟨e, some r, some p, some z, none, some f, gp⟩
        = some ⟨e, r.rt, rubyTextFont f r.fontSizeScale, z + 1, gp⟩) ∧
    (∀ (e : ℕ) (r : Ruby) (p : ℕ) (z : ℤ) (f : TextFont) (pf : Option TextFont)
        (gp : Option ℕ),
      addRubyTextSpan ⟨e, some r, some p, some z, some f, pf, gp⟩
        = some ⟨e, r.rt, rubyTextFont f r.fontSizeScale, z + 1, gp⟩) ∧
    (∀ (e : ℕ) (r : Ruby) (z : Option ℤ) (f pf : Option TextFont) (gp : Option ℕ),
      addRubyTextSpan ⟨e, some r, none, z, f, pf, gp⟩ = none) ∧
    (∀ (e : ℕ) (r : Ruby) (p : ℕ) (f pf : Option TextFont) (gp : Option ℕ),
      addRubyTextSpan ⟨e, some r, some p, none, f, pf, gp⟩ = none) ∧
    (∀ (e : ℕ) (r : Ruby) (p : ℕ) (f : TextFont) (c : ℚ) (z : ℚ),
      addRubyTextSpan2d ⟨e, some r, some p, some (f, c), some z⟩
        = some (createRubyText2d e r f c z)) ∧
    (∀ (e : ℕ) (r : Ruby) (p : ℕ) (z : Option ℚ),
      addRubyTextSpan2d ⟨e, some r, some p, none, z⟩ = none) ∧
    (∀ (e : ℕ) (r : Ruby) (fc : Option (TextFont × ℚ)) (z : Option ℚ),
      addRubyTextSpan2d ⟨e, some r, none, fc, z⟩ = none) ∧
    (∀ (e : ℕ) (r : Ruby) (p : ℕ) (f : TextFont) (c : ℚ),
      addRubyTextSpan2d ⟨e, some r, some p, some (f, c), none⟩ = none) := by
  refine ⟨?_, ?_, ?_, ?_, ?_, ?_, ?_, ?_⟩ <;> intros <;> rfl

/-- Modelled from the spec: the binding lifecycle state (spec sections 3
and 4.1).  The relationship upkeep itself is performed by the scene-graph
framework from the declarations `RubyText`/`LinkedRubyText` (src/src/ui.rs
lines 5-24) and `RubyText2d`/`LinkedRubyText2d` (src/src/text2d.rs lines
5-23): a relationship target holds a single node entity, and `linked_spawn`
despawns that node with its spec.  Entities are naturals drawn from a
monotone counter; `bind` maps a spec entity to its annotation node. -/
structure LWorld where
  nextId : ℕ
  specAlive : ℕ → Bool
  nodeAlive : ℕ → Bool
  bind : ℕ → Option ℕ

/-- Modelled from the spec: the lifecycle events — a spec entity is created
(spawning and binding an annotation node when host/font resolution
succeeds, and nothing otherwise), or a spec entity is destroyed (cascading
to its bound node, a missing binding being tolerated). -/
inductive LOp where
  | addSpec (resolvable : Bool)
  | removeSpec (e : ℕ)

/-- Modelled from the spec: applying one lifecycle event to the world. -/
def applyOp : LOp → LWorld → LWorld
  | .addSpec true, w =>
    ⟨w.nextId + 2,
     fun e => if e = w.nextId then true else w.specAlive e,
     fun n => if n = w.nextId + 1 then true else w.nodeAlive n,
     fun e => if e = w.nextId then some (w.nextId + 1) else w.bind e⟩
  | .addSpec false, w =>
    ⟨w.nextId + 1,
     fun e => if e = w.nextId then true else w.specAlive e,
     w.nodeAlive,
     w.bind⟩
  | .removeSpec e, w =>
    ⟨w.nextId,
     fun e2 => if e2 = e then false else w.specAlive e2,
     fun n => if w.bind e = some n then false else w.nodeAlive n,
     fun e2 => if e2 = e then none else w.bind e2⟩

/-- The empty world. -/
def emptyLWorld : LWorld := ⟨0, fun _ => false, fun _ => false, fun _ => none⟩

/-- Run a list of lifecycle events (most recent first). -/
def runOps : List LOp → LWorld
  | [] => emptyLWorld
  | op :: ops => applyOp op (runOps ops)

/-- The lifecycle invariant: every binding points from its spec entity to
the node spawned with it (spec id + 1), both alive and below the id
counter; all live ids are below the counter. -/
def LInv (w : LWorld) : Prop :=
  (∀ e n, w.bind e = some n →
    n = e + 1 ∧ w.specAlive e = true ∧ w.nodeAlive n = true ∧ n < w.nextId) ∧
  (∀ e, w.specAlive e = true → e < w.nextId) ∧
  (∀ n, w.nodeAlive n = true → n < w.nextId)

theorem LInv_empty : LInv emptyLWorld := by
  refine ⟨fun e n h => by simp [emptyLWorld] at h, ?_, ?_⟩ <;>
    intro e h <;> simp [emptyLWorld] at h

theorem LInv_apply (op : LOp) (w : LWorld) (hw : LInv w) : LInv (applyOp op w) := by
  obtain ⟨hb, hs, hn⟩ := hw
  cases op with
  | addSpec b =>
    cases b with
    | true =>
      refine ⟨fun e n h => ?_, fun e h => ?_, fun n h => ?_⟩
      · simp only [applyOp] at h ⊢
        by_cases he : e = w.nextId
        · simp [he] at h
          subst he h
          simp
        · simp [he] at h
          obtain ⟨h1, h2, h3, h4⟩ := hb e n h
          refine ⟨h1, ?_, ?_, by omega⟩
          · simp [he, h2]
          · have : n ≠ w.nextId + 1 := by omega
            simp [this, h3]
      · simp only [applyOp] at h ⊢
        by_cases he : e = w.nextId
        · omega
        · simp [he] at h
          have := hs e h
          omega
      · simp only [applyOp] at h ⊢
        by_cases hN : n = w.nextId + 1
        · omega
        · simp [hN] at h
          have := hn n h
          omega
    | false =>
      refine ⟨fun e n h => ?_, fun e h => ?_, fun n h => ?_⟩
      · simp only [applyOp] at h ⊢
        obtain ⟨h1, h2, h3, h4⟩ := hb e n h
        have he : e ≠ w.nextId := by
          intro hc
          have := hs e h2
          omega
        refine ⟨h1, by simp [he, h2], h3, by omega⟩
      · simp only [applyOp] at h ⊢
        by_cases he : e = w.nextId
        · omega
        · simp [he] at h
          have := hs e h
          omega
      · simp only [applyOp] at h ⊢
        have := hn n h
        omega
  | removeSpec e0 =>
    refine ⟨fun e n h => ?_, fun e h => ?_, fun n h => ?_⟩
    · simp only [applyOp] at h ⊢
      by_cases he : e = e0
      · simp [he] at h
      · simp [he] at h
        obtain ⟨h1, h2, h3, h4⟩ := hb e n h
        refine ⟨h1, by simp [he, h2], ?_, h4⟩
        · have hne : w.bind e0 ≠ some n := by
            intro hc
            obtain ⟨h1', _, _, _⟩ := hb e0 n hc
            omega
          simp [hne, h3]
    · simp only [applyOp] at h
      by_cases he : e = e0
      · simp [he] at h
      · simp [he] at h
        exact hs e h
    · simp only [applyOp] at h
      by_cases hB : w.bind e0 = some n
      · simp [hB] at h
      · simp [hB] at h
        exact hn n h

theorem LInv_run (ops : List LOp) : LInv (runOps ops) := by
  induction ops with
  | nil => exact LInv_empty
  | cons op ops ih => exact LInv_apply op (runOps ops) ih

/-- C10: in every world reachable by lifecycle events, each binding is to a
live node while its spec is alive, and distinct specs never share a node
(at most one binding and one node per spec, the bind map being a function);
destroying a spec entity removes both its binding and its bound node in
that same step; and re-adding a spec after a removal binds a node that did
not exist before, never a reused one. -/
theorem lifecycle_invariants (ops : List LOp) :
    (∀ e n, (runOps ops).bind e = some n →
      (runOps ops).specAlive e = true ∧ (runOps ops).nodeAlive n = true) ∧
    (∀ e1 e2 n, (runOps ops).bind e1 = some n → (runOps ops).bind e2 = some n →
      e1 = e2) ∧
    (∀ e n, (runOps ops).bind e = some n →
      (applyOp (.removeSpec e) (runOps ops)).nodeAlive n = false ∧
      (applyOp (.removeSpec e) (runOps ops)).bind e = none) ∧
    (∀ e n', (applyOp (.addSpec true) (applyOp (.removeSpec e) (runOps ops))).bind
          ((runOps ops).nextId) = some n' →
      (runOps ops).nodeAlive n' = false) := by
  obtain ⟨hb, hs, hn⟩ := LInv_run ops
  refine ⟨fun e n h => ?_, fun e1 e2 n h1 h2 => ?_, fun e n h => ?_, fun e n' h => ?_⟩
  · obtain ⟨_, h2, h3, _⟩ := hb e n h
    exact ⟨h2, h3⟩
  · obtain ⟨g1, _, _, _⟩ := hb e1 n h1
    obtain ⟨g2, _, _, _⟩ := hb e2 n h2
    omega
  · constructor
    · simp [applyOp, h]
    · simp [applyOp]
  · simp only [applyOp] at h
    simp at h
    rcases Bool.eq_false_or_eq_true ((runOps ops).nodeAlive n') with hT | hF
    · have := hn n' hT
      omega
    · exact hF

/-- C10 witness: a concrete run — one resolvable spec add gives binding
0 ↦ 1 with both alive; removing spec 0 kills node 1 and the binding. -/
theorem lifecycle_invariants_witness :
    (runOps [LOp.addSpec true]).bind 0 = some 1 ∧
    ((runOps [LOp.addSpec true]).specAlive 0 = true ∧
      (runOps [LOp.addSpec true]).nodeAlive 1 = true) ∧
    ((applyOp (.removeSpec 0) (runOps [LOp.addSpec true])).nodeAlive 1 = false ∧
      (applyOp (.removeSpec 0) (runOps [LOp.addSpec true])).bind 0 = none) := by
  have hbind : (runOps [LOp.addSpec true]).bind 0 = some 1 := by
    simp [runOps, emptyLWorld, applyOp]
  exact ⟨hbind, (lifecycle_invariants [LOp.addSpec true]).1 0 1 hbind,
    (lifecycle_invariants [LOp.addSpec true]).2.2.1 0 1 hbind⟩

end Furigana
